import Mathlib

/-!
Verification of the wholly-sheet row store (`WhollySheet.ts` and its
`RowModel`, the record type in `src/unnamed/part_001`).

Modelling conventions:

* JavaScript's dynamic cell/field values are embedded as the inductive
  `Value` (string, number, boolean, Date, array of strings,
  undefined/null).  JS numbers are modelled as `Int`: every number the
  engine produces or the claims exercise is an integer; `parseFloat` is
  therefore modelled on integer-valued strings only (fractional digits
  and NaN results are outside the model, see `jsParseFloat`).
* JS `Date` objects are modelled by their millisecond timestamp
  (`getTime`).  An unparseable date (JS "Invalid Date", time `NaN`) is
  modelled by the sentinel `invalidDate`, one past the maximal valid JS
  timestamp.  `compareDates a b = a.getTime() - b.getTime()` is nonzero
  whenever either side is invalid (NaN propagation), which
  `dateCmpNonzero` reproduces.
* The repository's `RowModel` declares its meta fields as
  `_row`/`_id`/`_updated` while `WhollySheet.ts` consistently addresses
  the same concepts as `model.row`, `model.id`, `model.updated` (and its
  `find` scans the property name `row`; `RowModel.header`'s own comment
  says "remove `row`").  The two files come from adjacent revisions of
  the same code.  The model uses one coherent set of names --- `row`,
  `id`, `updated`, the names the Table engine reads and writes --- for
  the single position/identifier/timestamp concept.
* JS strict equality `===` on objects (Dates, arrays) is reference
  equality.  The values compared by `checkOutdated` and `find` against a
  freshly constructed row can never be the same reference, so `strictEq`
  returns `false` on object-typed operands (see its comment).
* `Date.prototype.toString` renders in a locale form; the model reuses
  the ISO rendering (`isoString`).  Only the text of conflict messages
  and the stringification of date-valued keys depend on it, and no claim
  fixes that format.
-/

/-- A JavaScript value as it appears in a row field or a wire cell. -/
inductive Value where
  | vStr (s : String)
  | vNum (n : Int)
  | vBool (b : Bool)
  | vDate (t : Int)
  | vArr (xs : List String)
  | vNone
deriving DecidableEq, Repr

open Value

/-- Signifies an empty cell (`nilCell = '\0'` in RowModel). -/
def nilCell : String := "\x00"

/-- `noDate = new Date(-8640000000000000)`, the "no date" sentinel. -/
def noDateMs : Int := -8640000000000000

/-- Model of a JS "Invalid Date" (time `NaN`): one past the largest
representable JS timestamp, so it collides with no real date. -/
def invalidDate : Int := 8640000000000001

/-- JS truthiness. -/
def jsTruthy : Value → Bool
  | vStr s => s ≠ ""
  | vNum n => n ≠ 0
  | vBool b => b
  | vDate _ => true
  | vArr _ => true
  | vNone => false

/-- `Array.prototype.toString` joins with commas; modelled by explicit
recursion so that the split/join round trip is provable. -/
def joinComma : List String → String
  | [] => ""
  | [x] => x
  | x :: xs => x ++ "," ++ joinComma xs

/-- `String.prototype.split(',')` at the character level:
`"".split(',') = [""]`, `"a,b".split(',') = ["a","b"]`. -/
def splitCommaChars : List Char → List (List Char)
  | [] => [[]]
  | c :: rest =>
      if c = ',' then [] :: splitCommaChars rest
      else
        match splitCommaChars rest with
        | [] => [[c]]
        | g :: gs => (c :: g) :: gs

def splitComma (s : String) : List String :=
  (splitCommaChars s.data).map (fun cs => String.mk cs)

/-- Hinnant's civil-from-days: day count since 1970-01-01 to
(year, month, day).  Divisions are C-style truncations, matching
`Int.div` (the `/` of `Int`). -/
def civilFromDays (z0 : Int) : Int × Int × Int :=
  let z := z0 + 719468
  let era := (if z ≥ 0 then z else z - 146096) / 146097
  let doe := z - era * 146097
  let yoe := (doe - doe / 1460 + doe / 36524 - doe / 146096) / 365
  let y := yoe + era * 400
  let doy := doe - (365 * yoe + yoe / 4 - yoe / 100)
  let mp := (5 * doy + 2) / 153
  let d := doy - (153 * mp + 2) / 5 + 1
  let m := mp + (if mp < 10 then 3 else -9)
  (y + (if m ≤ 2 then 1 else 0), m, d)

/-- Inverse of `civilFromDays`. -/
def daysFromCivil (y0 m d : Int) : Int :=
  let y := y0 - (if m ≤ 2 then 1 else 0)
  let era := (if y ≥ 0 then y else y - 399) / 400
  let yoe := y - era * 400
  let doy := (153 * (m + (if m > 2 then -3 else 9)) + 2) / 5 + d - 1
  let doe := yoe * 365 + yoe / 4 - yoe / 100 + doy
  era * 146097 + doe - 719468

/-- Left-pad a natural with zeros. -/
def padZeros (n : Nat) (width : Nat) : String :=
  let s := toString n
  if s.length ≥ width then s
  else String.mk (List.replicate (width - s.length) '0') ++ s

/-- `Date.prototype.toISOString`: `YYYY-MM-DDTHH:MM:SS.sssZ`
(expanded-year form outside 0..9999). -/
def isoString (t : Int) : String :=
  let days := t.ediv 86400000
  let msod := (t.emod 86400000).toNat
  let ymd := civilFromDays days
  let y := ymd.1
  let m := ymd.2.1
  let d := ymd.2.2
  let hh := msod / 3600000
  let mi := msod % 3600000 / 60000
  let ss := msod % 60000 / 1000
  let ms := msod % 1000
  (if y < 0 then "-" ++ padZeros (-y).toNat 6
   else if y > 9999 then "+" ++ padZeros y.toNat 6
   else padZeros y.toNat 4) ++
  "-" ++ padZeros m.toNat 2 ++ "-" ++ padZeros d.toNat 2 ++
  "T" ++ padZeros hh 2 ++ ":" ++ padZeros mi 2 ++ ":" ++ padZeros ss 2 ++
  "." ++ padZeros ms 3 ++ "Z"

def digitVal (c : Char) : Nat := c.toNat - 48

/-- The runtime `new Date(string)` parser, modelled on the exact
`YYYY-MM-DDTHH:MM:SS.sssZ` format the engine itself writes; anything
else yields an Invalid Date (`none`). -/
def isoParse (s : String) : Option Int :=
  match s.data with
  | [y1, y2, y3, y4, '-', m1, m2, '-', d1, d2, 'T',
     h1, h2, ':', n1, n2, ':', s1, s2, '.', f1, f2, f3, 'Z'] =>
      if [y1, y2, y3, y4, m1, m2, d1, d2, h1, h2, n1, n2, s1, s2,
          f1, f2, f3].all Char.isDigit then
        let y : Int := Int.ofNat (((digitVal y1 * 10 + digitVal y2) * 10 +
                        digitVal y3) * 10 + digitVal y4)
        let mo : Int := Int.ofNat (digitVal m1 * 10 + digitVal m2)
        let dy : Int := Int.ofNat (digitVal d1 * 10 + digitVal d2)
        let hh : Int := Int.ofNat (digitVal h1 * 10 + digitVal h2)
        let mi : Int := Int.ofNat (digitVal n1 * 10 + digitVal n2)
        let ss : Int := Int.ofNat (digitVal s1 * 10 + digitVal s2)
        let ms : Int := Int.ofNat ((digitVal f1 * 10 + digitVal f2) * 10 +
                        digitVal f3)
        if 1 ≤ mo ∧ mo ≤ 12 ∧ 1 ≤ dy ∧ dy ≤ 31 ∧ hh ≤ 23 ∧ mi ≤ 59 ∧
           ss ≤ 59 then
          some (daysFromCivil y mo dy * 86400000 +
                hh * 3600000 + mi * 60000 + ss * 1000 + ms)
        else none
      else none
  | _ => none

/-- `value.toString()` / `String(value)` on the modelled values.
Dates render via the ISO form (see the header note); `String(undefined)`
is `"undefined"`; arrays comma-join. -/
def jsToString : Value → String
  | vStr s => s
  | vNum n => toString n
  | vBool b => if b then "true" else "false"
  | vDate t => if t = invalidDate then "Invalid Date" else isoString t
  | vArr xs => joinComma xs
  | vNone => "undefined"

/-- `s.startsWith(marker)` for the one-character markers the source
uses (`$`, `_`, `+`, `-`), at the character level so the kernel can
evaluate it. -/
def startsWithChar (s : String) (c : Char) : Bool :=
  match s.data with
  | [] => false
  | c0 :: _ => c0 = c

/-- The integer regular expression of `RowModel.typeCast`:
`/^([+-]?[1-9]\d*|0)$/`. -/
def isIntPattern (s : String) : Bool :=
  s = "0" ||
  (let t := match s.data with
            | [] => ([] : List Char)
            | c :: cs => if c = '+' ∨ c = '-' then cs else c :: cs
   match t with
   | [] => false
   | c :: cs => ('1' ≤ c && c ≤ '9') && cs.all Char.isDigit)

/-- Parse an optionally signed digit string as an integer (used only on
strings the integer pattern accepted). -/
def intOfDecimal (s : String) : Int :=
  let (sgn, t) : Int × List Char :=
    match s.data with
    | '-' :: cs => (-1, cs)
    | '+' :: cs => (1, cs)
    | cs => (1, cs)
  sgn * Int.ofNat (t.foldl (fun acc c => acc * 10 + digitVal c) 0)

/-- `parseInt(value, 10)`.  It is only invoked after `value.toString()`
matched the integer pattern; on a number it returns that number. -/
def jsParseInt : Value → Int
  | vNum n => n
  | v => intOfDecimal (jsToString v)

/-- `parseFloat(value)`.  On a number it returns that number.  The model
restricts JS numbers to integers, so on strings this is modelled as the
leading-integer parse; the fractional/NaN behaviour of the source is
outside the model and outside every claim (the branch is only reached
for non-integer-shaped strings assigned into a number field). -/
def jsParseFloat : Value → Int
  | vNum n => n
  | v => intOfDecimal (jsToString v)

/-- Modelled from the spec: `boolDefault` lives in the repository's
`sdk-rtl` package, which is not under `src/`; the spec describes it as
"a permissive true/false parser".  Accepts the usual true/false words
(case-insensitively) and otherwise returns the default. -/
def boolDefault (v : Value) (d : Bool) : Bool :=
  let s := String.mk ((jsToString v).data.map Char.toLower)
  if s = "true" ∨ s = "t" ∨ s = "yes" ∨ s = "y" ∨ s = "1" then true
  else if s = "false" ∨ s = "f" ∨ s = "no" ∨ s = "n" ∨ s = "0" then false
  else d

/-- JS strict equality `===` as used by `checkOutdated` and `find`:
primitives compare by value; object-typed operands (Dates, arrays)
compare by reference, and in both call sites one side is a freshly
constructed row's property (or a caller-held object distinct from the
stored one), so object comparisons are `false` in the model;
`undefined === undefined` is `true`. -/
def strictEq : Value → Value → Bool
  | vStr a, vStr b => a = b
  | vNum a, vNum b => a = b
  | vBool a, vBool b => a = b
  | vNone, vNone => true
  | _, _ => false

/-- `compareDates(a, b) = a.getTime() - b.getTime()` is nonzero: for
valid dates exactly when the times differ; with an Invalid Date (NaN
time) on either side, always (NaN is never 0). -/
def dateCmpNonzero (a b : Int) : Bool :=
  a ≠ b || a = invalidDate || b = invalidDate

/-- The declared domain-field shape of a concrete record type: field
names with their initial (declared) values, in declaration order. -/
def Shape := List (String × Value)
deriving DecidableEq

/-- A typed row (`RowModel`).  `row` is the 1-based sheet position (0 =
not persisted), `id` the unique key, `updated` the last-write timestamp,
`action` the numeric `$_action` tag (`RowAction`: 0 None, 1 Create,
2 Update, 3 Delete), and `fields` the domain fields in declaration
order. -/
structure RowModel where
  row : Int
  id : String
  updated : Int
  action : Int
  fields : List (String × Value)
deriving DecidableEq, Repr

/-- A fresh instance of a record shape (all meta fields at their
declared initial values, domain fields at the shape's defaults). -/
def freshRow (shape : Shape) : RowModel :=
  { row := 0, id := "", updated := noDateMs, action := 0, fields := shape }

/-- `Object.keys(this)`: the own properties in declaration order. -/
def RowModel.keys (r : RowModel) : List String :=
  "row" :: "id" :: "updated" :: "$_action" :: r.fields.map Prod.fst

/-- `RowModel.header()`: `keys().slice(1)` (drop the position) filtered
of `$`-prefixed names. -/
def RowModel.header (r : RowModel) : List String :=
  (r.keys.drop 1).filter (fun v => ¬ startsWithChar v '$')

/-- `RowModel.displayHeader()`: the header filtered of `_`-prefixed
names. -/
def RowModel.displayHeader (r : RowModel) : List String :=
  r.header.filter (fun v => ¬ startsWithChar v '_')

/-- Dynamic property read `this[key]`.  The four meta properties are
explicit; `$action` is the derived getter (reads as Create when the
explicit action is None and the row is unpositioned); any other name is
looked up among the domain fields, `undefined` when absent. -/
def RowModel.getProp (r : RowModel) (key : String) : Value :=
  if key = "row" then vNum r.row
  else if key = "id" then vStr r.id
  else if key = "updated" then vDate r.updated
  else if key = "$_action" then vNum r.action
  else if key = "$action" then
    vNum (if r.action = 0 ∧ r.row = 0 then 1 else r.action)
  else
    match r.fields.find? (fun kv => kv.1 = key) with
    | some kv => kv.2
    | none => vNone

/-- Replace the first binding of `key`, or append one (JS property
assignment adds new own properties at the end). -/
def updateAssoc (l : List (String × Value)) (key : String) (v : Value) :
    List (String × Value) :=
  match l with
  | [] => [(key, v)]
  | kv :: rest =>
      if kv.1 = key then (key, v) :: rest
      else kv :: updateAssoc rest key v

/-- Coerce a typeCast result into the typed meta slots.  `typeCast` on
`row`/`$_action` always lands in its number branch and on `id` in its
string branch, so the default arms are unreachable from the modelled
call sites. -/
def Value.asInt : Value → Int
  | vNum n => n
  | _ => 0

def Value.asStr : Value → String
  | vStr s => s
  | _ => ""

def Value.asDate : Value → Int
  | vDate t => t
  | _ => invalidDate

/-- Dynamic property write `this[key] = v`.  Writing `$action` invokes
the guarded setter of the source (Create refused on a positioned row,
non-None refused on an unpositioned row). -/
def RowModel.setProp (r : RowModel) (key : String) (v : Value) : RowModel :=
  if key = "row" then { r with row := v.asInt }
  else if key = "id" then { r with id := v.asStr }
  else if key = "updated" then { r with updated := v.asDate }
  else if key = "$_action" then { r with action := v.asInt }
  else if key = "$action" then
    if v.asInt = 1 ∧ r.row ≠ 0 then r
    else if v.asInt ≠ 0 ∧ r.row = 0 then r
    else { r with action := v.asInt }
  else { r with fields := updateAssoc r.fields key v }

/-- `key in this`.  In the source this is also true of prototype
members (the methods and the `$action` getter); assigning a
method-named key shadows the method with a data property, which the
model represents as an ordinary appended field. -/
def RowModel.hasProp (r : RowModel) (key : String) : Bool :=
  key = "row" || key = "id" || key = "updated" || key = "$_action" ||
  key = "$action" || (r.fields.map Prod.fst).contains key

/-- `this.toString()`: `RowModel` does not override
`Object.prototype.toString`, so every instance renders as
`"[object Object]"`. -/
def jsObjToString (_ : RowModel) : String := "[object Object]"

/-- `new Date(value)` for the argument shapes `typeCast` can pass:
a Date copies its time; a string goes through the runtime parser
(Invalid Date when unparseable); a number is a timestamp; a boolean
coerces to 0/1; an array coerces via its string form. -/
def jsNewDate : Value → Int
  | vDate t => t
  | vStr s => (isoParse s).getD invalidDate
  | vNum n => n
  | vBool b => if b then 1 else 0
  | vArr xs => (isoParse (joinComma xs)).getD invalidDate
  | vNone => invalidDate

/-- `RowModel.typeCast(key, value)`: dynamic, value-driven cast chosen
by the runtime type of the *current* value of `this[key]`. -/
def RowModel.typeCast (r : RowModel) (key : String) (v0 : Value) : Value :=
  let v := if v0 = vNone then vStr "" else v0
  match r.getProp key with
  | vStr _ => vStr (jsToString v)
  | vNum _ =>
      if v = vStr "" then vNum 0
      else if isIntPattern (jsToString v) then vNum (jsParseInt v)
      else vNum (jsParseFloat v)
  | vBool _ => vBool (boolDefault v false)
  | vDate _ => if jsTruthy v then vDate (jsNewDate v) else vDate noDateMs
  | vArr _ =>
      if ¬ jsTruthy v then vArr []
      else vArr (splitComma (jsToString v))
  | vNone => vStr (jsObjToString r)

/-- Positional `assign`: wire cells matched against the header order
(the key list is computed once, before the loop).  A cell beyond the
header is written to the property literally named `"undefined"`
(`this[keys[i]]` with `keys[i] === undefined`). -/
def RowModel.assignCells (r : RowModel) (cells : List String) : RowModel :=
  let keys := r.header
  (cells.enum.foldl
    (fun acc (p : Nat × String) =>
      let key := keys.getD p.1 "undefined"
      acc.setProp key (acc.typeCast key (vStr p.2)))
    r)

/-- Named `assign`: each entry whose key is a property of the row is
type-cast and stored; unknown keys are ignored. -/
def RowModel.assignObj (r : RowModel) (obj : List (String × Value)) :
    RowModel :=
  obj.foldl
    (fun acc kv =>
      if acc.hasProp kv.1 then acc.setProp kv.1 (acc.typeCast kv.1 kv.2)
      else acc)
    r

/-- `toObject()` is `{...this}`: the own enumerable properties, in
order. -/
def RowModel.toObjectEntries (r : RowModel) : List (String × Value) :=
  ("row", vNum r.row) :: ("id", vStr r.id) :: ("updated", vDate r.updated) ::
  ("$_action", vNum r.action) :: r.fields

/-- `fromObject(obj)` is `assign` restricted to named-source mode. -/
def RowModel.fromObject (r : RowModel) (obj : List (String × Value)) :
    RowModel :=
  r.assignObj obj

/-- `prepare()`: assign a fresh id when empty, always stamp `updated`
with the current time. -/
def RowModel.prepare (uuid : String) (now : Int) (r : RowModel) : RowModel :=
  { r with id := if r.id = "" then uuid else r.id, updated := now }

/-- `stringer(value)`: `undefined`/`null` become the empty-cell
sentinel; a Date equal to the `noDate` sentinel also serializes to the
sentinel (the source compares against the `noDate` singleton by
reference; the rows' `noDate` values all originate from that singleton)
and any other Date to its ISO form; everything else to its default
string form. -/
def stringer : Value → String
  | vNone => nilCell
  | vDate t => if t = noDateMs then nilCell else isoString t
  | v => jsToString v

/-- `RowModel.values()`: the row's cells in the row's own header
order. -/
def RowModel.values (r : RowModel) : List String :=
  r.header.map (fun key => stringer (r.getProp key))

/-- Errors are `SheetError` instances carrying a message string; the
model represents them by the message. -/
def SheetError := String
deriving DecidableEq, Repr

deriving instance DecidableEq for Except

/-- The in-memory mirror of one backend tab (`WhollySheet`).
`tableHeader` is `table.header`, the snapshot's column-order contract;
`shape` is the concrete record type's declared domain shape used by
`typeRows`; `index` is the keyed lookup object, an insertion-ordered
association list with JS object-assignment (overwrite) semantics. -/
structure Table where
  name : String
  keyColumn : String
  tableHeader : List String
  shape : Shape
  rows : List RowModel
  index : List (String × RowModel)
deriving DecidableEq

/-- Modelled from the spec: `typeRows` is abstract in `WhollySheet`
("Converts raw rows into typed rows") and its concrete overrides live in
model files outside `src/`; each raw cell array becomes a fresh typed
row of the record shape hydrated positionally (`new Row(values)` with an
array argument positional-assigns). -/
def typeRow (shape : Shape) (cells : List String) : RowModel :=
  (freshRow shape).assignCells cells

/-- Modelled from the spec: see `typeRow`. -/
def typeRows (shape : Shape) (rows : List (List String)) : List RowModel :=
  rows.map (typeRow shape)

/-- The string a value is converted to when used as a JS object key
(`this.index[r[this.keyColumn]]`) or by `value.toString()`. -/
def keyOf (keyColumn : String) (r : RowModel) : String :=
  jsToString (r.getProp keyColumn)

/-- JS object assignment `ix[k] = v`: overwrite in place, else append. -/
def ixInsert (ix : List (String × RowModel)) (k : String) (v : RowModel) :
    List (String × RowModel) :=
  match ix with
  | [] => [(k, v)]
  | kv :: rest =>
      if kv.1 = k then (k, v) :: rest
      else kv :: ixInsert rest k v

/-- JS object read `ix[k]`, `undefined` when absent. -/
def ixGet : List (String × RowModel) → String → Option RowModel
  | [], _ => none
  | kv :: rest, k => if kv.1 = k then some kv.2 else ixGet rest k

/-- `createIndex()`: rebuild the whole key -> row object from `rows`. -/
def createIndex (keyColumn : String) (rows : List RowModel) :
    List (String × RowModel) :=
  rows.foldl (fun ix r => ixInsert ix (keyOf keyColumn r) r) []

/-- The `nextRow` getter: row count + 1 for the header + 1 for 1-based
rows. -/
def nextRow (t : Table) : Int := (t.rows.length : Int) + 2

/-- `WhollySheet.values(model)`: the model's cells in *table* header
order. -/
def tableValues (t : Table) (m : RowModel) : List String :=
  t.tableHeader.map (fun h => stringer (m.getProp h))

/-- `checkHeader()` compares the comma-joins of the first typed row's
declared header and the snapshot header; with no rows there is nothing
to check. -/
def checkHeaderMsg (rowHeader tableHeader : String) : SheetError :=
  "Expected table.header to be " ++ rowHeader ++ " not " ++ tableHeader

/-- The `WhollySheet` constructor: type the raw snapshot rows, verify
the header contract, build the index. -/
def tableInit (name keyColumn : String) (shape : Shape)
    (tableHeader : List String) (rawRows : List (List String)) :
    Except SheetError Table :=
  let rows := typeRows shape rawRows
  match rows with
  | [] =>
      .ok { name, keyColumn, tableHeader, shape, rows,
            index := createIndex keyColumn rows }
  | r0 :: _ =>
      if String.intercalate "," tableHeader ≠ String.intercalate "," r0.header
      then .error (checkHeaderMsg (String.intercalate "," r0.header)
                    (String.intercalate "," tableHeader))
      else
        .ok { name, keyColumn, tableHeader, shape, rows,
              index := createIndex keyColumn rows }

/-- `checkId(model)`'s error message. -/
def checkIdMsg (keyColumn : String) (row : Int) : SheetError :=
  "\"" ++ keyColumn ++ "\" must be assigned for row " ++ toString row

/-- Whether `checkId` throws: `!model[this.keyColumn]`. -/
def checkIdFails (t : Table) (m : RowModel) : Bool :=
  ¬ jsTruthy (m.getProp t.keyColumn)

/-- The mismatch list `checkOutdated` accumulates from the single-row
fetch (`rowGet`) response: "Row not found" when the response is empty,
then a message for a changed timestamp and one for a changed key ---
every mismatch found, not just the first.  (`fetched.updated` is never
`undefined` on a typed row, so the source's `!== undefined` guard is
always passed.) -/
def outdatedErrors (t : Table) (fetchResp : List (List String))
    (m : RowModel) : List String :=
  match fetchResp with
  | [] => ["Row not found"]
  | cells :: _ =>
      let fetched := typeRow t.shape cells
      (if dateCmpNonzero fetched.updated m.updated then
        ["update is " ++ jsToString (vDate fetched.updated) ++ " not " ++
         jsToString (vDate m.updated)]
       else []) ++
      (if ¬ strictEq (fetched.getProp t.keyColumn) (m.getProp t.keyColumn)
       then
        [t.keyColumn ++ " is \"" ++ jsToString (fetched.getProp t.keyColumn)
         ++ "\" not \"" ++ jsToString (m.getProp t.keyColumn) ++ "\""]
       else [])

/-- The `Conflict` error message. -/
def outdatedMsg (row : Int) (errors : List String) : SheetError :=
  "Row " ++ toString row ++ " is outdated: " ++ String.intercalate "," errors

/-- `checkOutdated(model)`: a no-op for rows below position 1 (nothing
persisted to be stale against); otherwise fetch the current backend row
at that position and fail with the multi-error report if anything
mismatches.  `fetchResp` is the backend `rowGet` response (a nested
array, one cell array per returned row; empty = row absent). -/
def checkOutdatedOp (t : Table) (fetchResp : List (List String))
    (m : RowModel) : Except SheetError Bool :=
  if m.row < 1 then .ok false
  else
    let errors := outdatedErrors t fetchResp m
    if errors ≠ [] then .error (outdatedMsg m.row errors)
    else .ok false

/-- Backend response to `rowCreate`: the authoritative position and the
stored cell values (one cell array per written row). -/
structure CreateResult where
  row : Int
  values : List (List String)
deriving DecidableEq, Repr

/-- Backend response to `rowUpdate`: the stored cell values, when the
response carries any. -/
structure UpdateResult where
  values : Option (List (List String))
deriving DecidableEq, Repr

/-- `refresh()`'s pure state transition: fetch the whole tab, trim the
header row, retype, stamp sequential positions (index + 2), replace
`rows`, rebuild the index.  `tabResp` is the backend `tabValues`
response (header row included at index 0). -/
def positionRows (i : Int) : List RowModel → List RowModel
  | [] => []
  | r :: rs => { r with row := i } :: positionRows (i + 1) rs

def refreshApply (tabResp : List (List String)) (t : Table) : Table :=
  let rows := positionRows 2 (typeRows t.shape (tabResp.drop 1))
  { t with rows := rows, index := createIndex t.keyColumn rows }

/-- `refresh()`: returns the new row list. -/
def refreshOp (tabResp : List (List String)) (t : Table) :
    Except SheetError (List RowModel) × Table :=
  let t1 := refreshApply tabResp t
  (.ok t1.rows, t1)

/-- `create(model)`.  `uuid`/`now` feed `prepare()`; `resp` is the
backend `rowCreate` response; `tabResp` is the `tabValues` response
consumed if the position guess was wrong and a full `refresh()` is
needed.  Returns `this.index[newRow[this.keyColumn]]` (which is
`undefined`, i.e. `none`, if the key is not in the rebuilt index). -/
def createOp (uuid : String) (now : Int) (resp : CreateResult)
    (tabResp : List (List String)) (t : Table) (m : RowModel) :
    Except SheetError (Option RowModel) × Table :=
  if m.row > 0 then
    (.error ("create needs \"" ++ jsToString (m.getProp "id") ++
             "\" row to be < 1, not " ++ toString m.row), t)
  else
    let m := m.prepare uuid now
    if checkIdFails t m then (.error (checkIdMsg t.keyColumn m.row), t)
    else
      -- the serialized cells are sent with the request; the backend's
      -- answer is the `resp` parameter
      let _cells := tableValues t m
      if resp.row < 1 ∨ resp.values = [] then
        (.error ("Could not create row for " ++
                 jsToString (m.getProp t.keyColumn)), t)
      else
        let newRow := { typeRow t.shape (resp.values.headD []) with
                        row := resp.row }
        if resp.row = nextRow t then
          let rows := t.rows ++ [newRow]
          let t1 := { t with rows := rows,
                             index := createIndex t.keyColumn rows }
          (.ok (ixGet t1.index (keyOf t1.keyColumn newRow)), t1)
        else
          let t1 := refreshApply tabResp t
          (.ok (ixGet t1.index (keyOf t1.keyColumn newRow)), t1)

/-- `update(model)`.  `fetchResp` feeds the `checkOutdated` staleness
check; `resp` is the backend `rowUpdate` response.  On success the
in-memory row at `model.row - 2` is overwritten from the returned
values and the index rebuilt.  (The source reads `this.rows[rowPos]`
without a bounds check; an out-of-range position with returned values
raises a TypeError, modelled as an error.)  Returns `this.rows[rowPos]`
(`none` models `undefined` when the position is out of range). -/
def updateOp (uuid : String) (now : Int) (fetchResp : List (List String))
    (resp : UpdateResult) (t : Table) (m : RowModel) :
    Except SheetError (Option RowModel) × Table :=
  if checkIdFails t m then (.error (checkIdMsg t.keyColumn m.row), t)
  else if m.row = 0 then
    (.error ("\"" ++ jsToString (m.getProp "id") ++
             "\" row must be > 0 to update"), t)
  else
    match checkOutdatedOp t fetchResp m with
    | .error e => (.error e, t)
    | .ok _ =>
        let rowPos := m.row - 2
        let m := m.prepare uuid now
        let _cells := tableValues t m
        let rows :=
          match resp.values with
          | none => t.rows
          | some vals =>
              match vals with
              | [] => t.rows   -- assign(undefined) leaves the row as is
              | cells :: _ =>
                  t.rows.enum.map
                    (fun p => if (p.1 : Int) = rowPos
                              then p.2.assignCells cells else p.2)
        if resp.values ≠ none ∧
           ¬ (0 ≤ rowPos ∧ rowPos < (t.rows.length : Int)) then
          -- TypeError: this.rows[rowPos] is undefined
          (.error "TypeError: this.rows[rowPos] is undefined", t)
        else
          let t1 := { t with rows := rows,
                             index := createIndex t.keyColumn rows }
          if 0 ≤ rowPos ∧ rowPos < (t1.rows.length : Int) then
            (.ok (t1.rows.get? rowPos.toNat), t1)
          else
            (.ok none, t1)

/-- `delete(model)`: staleness check, backend row-delete, then retype
the returned remaining value set wholesale and rebuild the index.
`delResp` is the backend `rowDelete` response; modelled from the spec,
`deleteRow(name, position)` returns the remaining data rows
(`readTab` is specified to include the header row, `deleteRow` is not).
-/
def deleteOp (fetchResp delResp : List (List String)) (t : Table)
    (m : RowModel) : Except SheetError Bool × Table :=
  match checkOutdatedOp t fetchResp m with
  | .error e => (.error e, t)
  | .ok _ =>
      let rows := typeRows t.shape delResp
      (.ok true, { t with rows := rows,
                          index := createIndex t.keyColumn rows })

/-- `find(value, columnName?)`.  Falsy values find nothing.  A numeric
value without a column name scans the position property `row`; an
explicit column name equal to the key column is an indexed lookup by the
value's string form; otherwise the first row whose named property is
strictly equal to the value (the name defaulting to the key column). -/
def findOp (t : Table) (v : Value) (columnName : Option String) :
    Option RowModel :=
  if ¬ jsTruthy v then none
  else
    let colGiven := match columnName with
                    | some c => c != ""
                    | none => false
    let key0 := if colGiven then columnName.getD "" else t.keyColumn
    let isNumV := match v with | vNum _ => true | _ => false
    let key := if isNumV && !colGiven then "row" else key0
    if columnName = some t.keyColumn then ixGet t.index (jsToString v)
    else t.rows.find? (fun r => strictEq (r.getProp key) v)

/-- `true` on `.ok` results. -/
def exceptOk {α : Type} : Except SheetError α → Bool
  | .ok _ => true
  | .error _ => false

/-- The rows' key-column values, at the string level at which the index
is keyed, are pairwise distinct. -/
def keysNodup (t : Table) : Prop :=
  (t.rows.map (keyOf t.keyColumn)).Nodup

instance keysNodupDecidable (t : Table) : Decidable (keysNodup t) :=
  inferInstanceAs (Decidable ((t.rows.map (keyOf t.keyColumn)).Nodup))

/-- The index maps each row's stringified key-column value to that exact
row, and contains no entry for any key not belonging to a current
row. -/
def indexConsistent (t : Table) : Prop :=
  (∀ r ∈ t.rows, ixGet t.index (keyOf t.keyColumn r) = some r) ∧
  (∀ k r, ixGet t.index k = some r → r ∈ t.rows ∧ keyOf t.keyColumn r = k)

/-- A field value that survives the `toObject`/`fromObject` round trip:
anything except `undefined`/`null` values, empty arrays (which
`[].toString().split(',')` turns into `[""]`) and arrays with
comma-containing elements (which re-split differently). -/
def goodVal : Value → Prop
  | vArr xs => xs ≠ [] ∧ ∀ x ∈ xs, ',' ∉ x.data
  | vNone => False
  | _ => True

instance goodValDecidable : (v : Value) → Decidable (goodVal v)
  | vStr _ => .isTrue trivial
  | vNum _ => .isTrue trivial
  | vBool _ => .isTrue trivial
  | vDate _ => .isTrue trivial
  | vArr xs => inferInstanceAs (Decidable (xs ≠ [] ∧ ∀ x ∈ xs, ',' ∉ x.data))
  | vNone => .isFalse id

/-- A well-formed record shape: domain field names are distinct and do
not collide with the meta properties. -/
def shapeWf (fields : List (String × Value)) : Prop :=
  (fields.map Prod.fst).Nodup ∧
  ∀ n ∈ fields.map Prod.fst,
    n ≠ "row" ∧ n ≠ "id" ∧ n ≠ "updated" ∧ n ≠ "$_action" ∧ n ≠ "$action"

/-- Sample record shape, snapshot and Table used by the concrete
witnesses: two domain fields, two data rows, positions stamped as a
`refresh` leaves them. -/
def sampleShape : Shape := [("name", vStr ""), ("tags", vArr [])]

def sampleHeader : List String := ["id", "updated", "name", "tags"]

def sampleRawRows : List (List String) :=
  [["a1", "", "Ann", "x,y"], ["b2", "", "Bob", ""]]

def sampleRows : List RowModel :=
  positionRows 2 (typeRows sampleShape sampleRawRows)

def sampleTable : Table :=
  { name := "p", keyColumn := "id", tableHeader := sampleHeader,
    shape := sampleShape, rows := sampleRows,
    index := createIndex "id" sampleRows }

/-- A tab snapshot (header row included) used as a refresh response. -/
def sampleRefreshResp : List (List String) :=
  [["id", "updated", "name", "tags"], ["c3", "", "Cy", ""],
   ["d4", "", "Di", ""]]

/-- An unpersisted row to create. -/
def sampleNewRow : RowModel :=
  { row := 0, id := "", updated := noDateMs, action := 0,
    fields := [("name", vStr "Ed"), ("tags", vArr [])] }

/-- A persisted row at position 2 with the sample table's first key. -/
def samplePosRow : RowModel :=
  { row := 2, id := "a1", updated := noDateMs, action := 0,
    fields := [("name", vStr "Ann"), ("tags", vArr ["x", "y"])] }

/-- A persisted row at position 2 whose key field is still empty. -/
def sampleEmptyKeyRow : RowModel :=
  { row := 2, id := "", updated := noDateMs, action := 0,
    fields := [("name", vStr "Ann"), ("tags", vArr ["x", "y"])] }

/-- A row with an `undefined`-valued domain field. -/
def sampleNoneRow : RowModel :=
  { row := 0, id := "", updated := noDateMs, action := 0,
    fields := [("u", vNone)] }

/-- A row exercising every round-trippable field type. -/
def sampleFullRow : RowModel :=
  { row := 3, id := "abc", updated := 77, action := 2,
    fields := [("name", vStr "hi"), ("n", vNum (-5)), ("b", vBool true),
               ("d", vDate 123), ("tags", vArr ["x", "y"])] }

theorem ixGet_nil (k : String) : ixGet [] k = none := rfl

theorem ixGet_ixInsert (ix : List (String × RowModel)) (k k' : String)
    (v : RowModel) :
    ixGet (ixInsert ix k v) k' = if k' = k then some v else ixGet ix k' := by
  induction ix with
  | nil =>
      by_cases h : k' = k
      · subst h; simp [ixInsert, ixGet]
      · have h' : ¬ k = k' := fun hh => h hh.symm
        simp [ixInsert, ixGet, h, h']
  | cons kv rest ih =>
      by_cases h1 : kv.1 = k
      · by_cases h : k' = k
        · subst h; simp [ixInsert, if_pos h1, ixGet]
        · have h1' : ¬ kv.1 = k' := by rw [h1]; exact fun hh => h hh.symm
          have h' : ¬ k = k' := fun hh => h hh.symm
          simp [ixInsert, if_pos h1, ixGet, h, h1', h']
      · by_cases h2 : kv.1 = k'
        · have hk : ¬ k' = k := fun hh => h1 (h2.trans hh)
          simp [ixInsert, if_neg h1, ixGet, h2, hk]
        · simp [ixInsert, if_neg h1, ixGet, h2, ih]

theorem ixGet_createIndexAux (kc : String) (rows : List RowModel)
    (acc : List (String × RowModel)) (k : String) :
    ixGet (rows.foldl (fun ix r => ixInsert ix (keyOf kc r) r) acc) k =
      match rows.reverse.find? (fun r => keyOf kc r = k) with
      | some r => some r
      | none => ixGet acc k := by
  induction rows generalizing acc with
  | nil => simp
  | cons r rs ih =>
      simp only [List.foldl_cons, List.reverse_cons]
      rw [ih, List.find?_append]
      cases hfind : rs.reverse.find? (fun x => decide (keyOf kc x = k)) with
      | some r2 => simp [hfind]
      | none =>
          simp only [hfind, Option.none_orElse, List.find?]
          rw [ixGet_ixInsert]
          by_cases h : keyOf kc r = k
          · simp [h]
          · have h' : ¬ k = keyOf kc r := fun hh => h hh.symm
            simp [h, h']

theorem find?_key_of_mem {kc : String} {r : RowModel} {l : List RowModel}
    (hnd : (l.map (keyOf kc)).Nodup) (hm : r ∈ l) :
    l.find? (fun x => keyOf kc x = keyOf kc r) = some r := by
  induction l with
  | nil => cases hm
  | cons x xs ih =>
      simp only [List.map_cons, List.nodup_cons] at hnd
      by_cases h : keyOf kc x = keyOf kc r
      · rcases List.mem_cons.mp hm with rfl | hxs
        · simp [List.find?]
        · exact absurd (h ▸ List.mem_map_of_mem (keyOf kc) hxs) hnd.1
      · have hr : r ∈ xs := by
          rcases List.mem_cons.mp hm with rfl | hxs
          · exact absurd rfl h
          · exact hxs
        simpa [List.find?, h] using ih hnd.2 hr

theorem ixGet_createIndex_of_mem {kc : String} {rows : List RowModel}
    {r : RowModel} (hnd : (rows.map (keyOf kc)).Nodup) (hm : r ∈ rows) :
    ixGet (createIndex kc rows) (keyOf kc r) = some r := by
  rw [createIndex, ixGet_createIndexAux]
  have hnd2 : (rows.reverse.map (keyOf kc)).Nodup := by
    rw [List.map_reverse]; exact List.nodup_reverse.mpr hnd
  rw [find?_key_of_mem hnd2 (List.mem_reverse.mpr hm)]

theorem ixGet_createIndex_some {kc : String} {rows : List RowModel}
    {k : String} {r : RowModel}
    (h : ixGet (createIndex kc rows) k = some r) :
    r ∈ rows ∧ keyOf kc r = k := by
  rw [createIndex, ixGet_createIndexAux] at h
  cases hf : rows.reverse.find? (fun x => keyOf kc x = k) with
  | none => rw [hf] at h; simp [ixGet] at h
  | some r2 =>
      rw [hf] at h
      have hr : r2 = r := by simpa using h
      subst hr
      refine ⟨List.mem_reverse.mp (List.mem_of_find?_eq_some hf), ?_⟩
      have := List.find?_some hf
      simpa using this

theorem foldl_fixed {α β : Type} (f : α → β → α) (a : α) (l : List β)
    (h : ∀ b ∈ l, f a b = a) : l.foldl f a = a := by
  induction l with
  | nil => rfl
  | cons x xs ih =>
      rw [List.foldl_cons, h x (List.mem_cons_self x xs)]
      exact ih (fun b hb => h b (List.mem_cons_of_mem x hb))

theorem positionRows_length (i : Int) (l : List RowModel) :
    (positionRows i l).length = l.length := by
  induction l generalizing i with
  | nil => rfl
  | cons r rs ih => simp [positionRows, ih]

theorem positionRows_get? (i : Int) (l : List RowModel) (j : Nat) :
    (positionRows i l).get? j =
      (l.get? j).map (fun r => { r with row := i + (j : Int) }) := by
  induction l generalizing i j with
  | nil => simp [positionRows]
  | cons r rs ih =>
      cases j with
      | zero => simp [positionRows]
      | succ j =>
          have hstep : (positionRows i (r :: rs)).get? (j + 1) =
              (positionRows (i + 1) rs).get? j := rfl
          have hcons : (r :: rs).get? (j + 1) = rs.get? j := rfl
          rw [hstep, ih (i + 1) j, hcons]
          have harith : i + 1 + (j : Int) = i + ((j + 1 : Nat) : Int) := by
            push_cast; ring
          cases h : rs.get? j with
          | none => rfl
          | some x => simp only [Option.map_some, harith]

theorem splitCommaChars_no_comma (l : List Char) (h : ',' ∉ l) :
    splitCommaChars l = [l] := by
  induction l with
  | nil => rfl
  | cons c cs ih =>
      have hc : ¬ c = ',' := fun hh => h (hh ▸ List.mem_cons_self c cs)
      have hcs : ',' ∉ cs := fun hm => h (List.mem_cons_of_mem c hm)
      simp [splitCommaChars, hc, ih hcs]

theorem splitCommaChars_append (l t : List Char) (h : ',' ∉ l) :
    splitCommaChars (l ++ ',' :: t) = l :: splitCommaChars t := by
  induction l with
  | nil => simp [splitCommaChars]
  | cons c cs ih =>
      have hc : ¬ c = ',' := fun hh => h (hh ▸ List.mem_cons_self c cs)
      have hcs : ',' ∉ cs := fun hm => h (List.mem_cons_of_mem c hm)
      simp [splitCommaChars, hc, ih hcs]

theorem splitComma_joinComma (xs : List String) (hne : xs ≠ [])
    (hnc : ∀ x ∈ xs, ',' ∉ x.data) :
    splitComma (joinComma xs) = xs := by
  induction xs with
  | nil => cases hne rfl
  | cons x ys ih =>
      cases ys with
      | nil =>
          have hx : ',' ∉ x.data := hnc x (List.mem_cons_self _ _)
          simp [splitComma, joinComma, splitCommaChars_no_comma x.data hx]
      | cons y zs =>
          have hx : ',' ∉ x.data := hnc x (List.mem_cons_self _ _)
          have hrest : ∀ z ∈ y :: zs, ',' ∉ z.data :=
            fun z hz => hnc z (List.mem_cons_of_mem _ hz)
          have hjoin : joinComma (x :: y :: zs) = x ++ "," ++ joinComma (y :: zs) :=
            rfl
          have hdata : (x ++ "," ++ joinComma (y :: zs)).data =
              x.data ++ ',' :: (joinComma (y :: zs)).data := by
            show x.data ++ [','] ++ (joinComma (y :: zs)).data = _
            simp
          have hrec := ih (by simp) hrest
          rw [splitComma] at hrec ⊢
          rw [hjoin, hdata, splitCommaChars_append _ _ hx]
          simp only [List.map_cons]
          rw [hrec]

theorem createOp_ok_shape {uuid : String} {now : Int} {resp : CreateResult}
    {tabResp : List (List String)} {t : Table} {m : RowModel}
    {v : Option RowModel} {t1 : Table}
    (h : createOp uuid now resp tabResp t m = (.ok v, t1)) :
    t1.keyColumn = t.keyColumn ∧ t1.index = createIndex t1.keyColumn t1.rows := by
  simp only [createOp] at h
  repeat' split at h
  all_goals
    first
      | (rw [Prod.mk.injEq] at h
         obtain ⟨-, h2⟩ := h
         subst h2
         exact ⟨rfl, rfl⟩)
      | (exfalso; simp at h)

theorem updateOp_ok_shape {uuid : String} {now : Int}
    {fetchResp : List (List String)} {resp : UpdateResult} {t : Table}
    {m : RowModel} {v : Option RowModel} {t1 : Table}
    (h : updateOp uuid now fetchResp resp t m = (.ok v, t1)) :
    t1.keyColumn = t.keyColumn ∧ t1.index = createIndex t1.keyColumn t1.rows := by
  simp only [updateOp] at h
  repeat' split at h
  all_goals
    first
      | (rw [Prod.mk.injEq] at h
         obtain ⟨-, h2⟩ := h
         subst h2
         exact ⟨rfl, rfl⟩)
      | (exfalso; simp at h)

theorem deleteOp_ok_shape {fetchResp delResp : List (List String)}
    {t : Table} {m : RowModel} {v : Bool} {t1 : Table}
    (h : deleteOp fetchResp delResp t m = (.ok v, t1)) :
    t1.keyColumn = t.keyColumn ∧ t1.index = createIndex t1.keyColumn t1.rows := by
  simp only [deleteOp] at h
  repeat' split at h
  all_goals
    first
      | (rw [Prod.mk.injEq] at h
         obtain ⟨-, h2⟩ := h
         subst h2
         exact ⟨rfl, rfl⟩)
      | (exfalso; simp at h)

theorem refreshOp_shape {tabResp : List (List String)} {t : Table}
    {v : Except SheetError (List RowModel)} {t1 : Table}
    (h : refreshOp tabResp t = (v, t1)) :
    t1.keyColumn = t.keyColumn ∧ t1.index = createIndex t1.keyColumn t1.rows := by
  rw [Prod.mk.injEq] at h
  obtain ⟨-, h2⟩ := h
  subst h2
  exact ⟨rfl, rfl⟩

theorem createIndex_consistent {kc : String} {rows : List RowModel}
    (hnd : (rows.map (keyOf kc)).Nodup) :
    (∀ r ∈ rows, ixGet (createIndex kc rows) (keyOf kc r) = some r) ∧
    (∀ k r, ixGet (createIndex kc rows) k = some r →
       r ∈ rows ∧ keyOf kc r = k) :=
  ⟨fun _ hr => ixGet_createIndex_of_mem hnd hr,
   fun _ _ h => ixGet_createIndex_some h⟩

theorem typeCast_num_self (r : RowModel) (key : String) {n : Int}
    (h : r.getProp key = vNum n) (m : Int) :
    r.typeCast key (vNum m) = vNum m := by
  unfold RowModel.typeCast
  rw [h]
  simp [jsParseInt, jsParseFloat]

theorem typeCast_str_self (r : RowModel) (key : String) {s : String}
    (h : r.getProp key = vStr s) (u : String) :
    r.typeCast key (vStr u) = vStr u := by
  unfold RowModel.typeCast
  rw [h]
  simp [jsToString]

theorem typeCast_date_self (r : RowModel) (key : String) {d : Int}
    (h : r.getProp key = vDate d) (x : Int) :
    r.typeCast key (vDate x) = vDate x := by
  unfold RowModel.typeCast
  rw [h]
  simp [jsTruthy, jsNewDate]

theorem typeCast_bool_self (r : RowModel) (key : String) {b : Bool}
    (h : r.getProp key = vBool b) (c : Bool) :
    r.typeCast key (vBool c) = vBool c := by
  unfold RowModel.typeCast
  rw [h]
  cases c <;> simp [boolDefault, jsToString]

theorem typeCast_arr_self (r : RowModel) (key : String) {xs : List String}
    (h : r.getProp key = vArr xs) (ys : List String) (hne : ys ≠ [])
    (hnc : ∀ y ∈ ys, ',' ∉ y.data) :
    r.typeCast key (vArr ys) = vArr ys := by
  unfold RowModel.typeCast
  rw [h]
  have hv : (if (vArr ys : Value) = vNone then vStr "" else vArr ys) = vArr ys := by
    simp
  rw [hv]
  simp only [jsTruthy]
  rw [if_neg (by simp)]
  rw [show jsToString (vArr ys) = joinComma ys from rfl]
  rw [splitComma_joinComma ys hne hnc]

theorem find?_pair_of_nodup {l : List (String × Value)} {n : String}
    {v : Value} (hnd : (l.map Prod.fst).Nodup) (hm : (n, v) ∈ l) :
    l.find? (fun kv => kv.1 = n) = some (n, v) := by
  induction l with
  | nil => cases hm
  | cons kv rest ih =>
      simp only [List.map_cons, List.nodup_cons] at hnd
      by_cases h : kv.1 = n
      · rcases List.mem_cons.mp hm with rfl | hrest
        · simp [List.find?]
        · exact absurd (h ▸ List.mem_map_of_mem Prod.fst hrest) hnd.1
      · have hrest : (n, v) ∈ rest := by
          rcases List.mem_cons.mp hm with rfl | hr
          · exact absurd rfl h
          · exact hr
        simpa [List.find?, h] using ih hnd.2 hrest

theorem updateAssoc_self {l : List (String × Value)} {n : String} {v : Value}
    (hnd : (l.map Prod.fst).Nodup) (hm : (n, v) ∈ l) :
    updateAssoc l n v = l := by
  induction l with
  | nil => cases hm
  | cons kv rest ih =>
      simp only [List.map_cons, List.nodup_cons] at hnd
      by_cases h : kv.1 = n
      · rcases List.mem_cons.mp hm with rfl | hrest
        · simp [updateAssoc]
        · exact absurd (h ▸ List.mem_map_of_mem Prod.fst hrest) hnd.1
      · have hrest : (n, v) ∈ rest := by
          rcases List.mem_cons.mp hm with rfl | hr
          · exact absurd rfl h
          · exact hr
        simp [updateAssoc, h, ih hnd.2 hrest]

theorem getProp_field {r : RowModel} {n : String} {v : Value}
    (h1 : n ≠ "row") (h2 : n ≠ "id") (h3 : n ≠ "updated")
    (h4 : n ≠ "$_action") (h5 : n ≠ "$action")
    (hnd : (r.fields.map Prod.fst).Nodup) (hm : (n, v) ∈ r.fields) :
    r.getProp n = v := by
  unfold RowModel.getProp
  rw [if_neg h1, if_neg h2, if_neg h3, if_neg h4, if_neg h5,
      find?_pair_of_nodup hnd hm]

theorem setProp_field_self {r : RowModel} {n : String} {v : Value}
    (h1 : n ≠ "row") (h2 : n ≠ "id") (h3 : n ≠ "updated")
    (h4 : n ≠ "$_action") (h5 : n ≠ "$action")
    (hnd : (r.fields.map Prod.fst).Nodup) (hm : (n, v) ∈ r.fields) :
    r.setProp n v = r := by
  unfold RowModel.setProp
  rw [if_neg h1, if_neg h2, if_neg h3, if_neg h4, if_neg h5,
      updateAssoc_self hnd hm]

theorem hasProp_field {r : RowModel} {n : String}
    (hm : n ∈ r.fields.map Prod.fst) : r.hasProp n = true := by
  unfold RowModel.hasProp
  obtain ⟨p, hp, hfst⟩ := List.mem_map.mp hm
  have hc : (r.fields.map Prod.fst).contains n = true :=
    List.elem_eq_true_of_mem hm
  simp only [hc, Bool.or_true]

/-- C9, counterexample: the claim "for every record, fromObject of
toObject yields an equal record" fails on a record with an empty
array-valued field: `[].toString().split(',')` is `[""]`, so the round
trip turns the empty `tags` array into `[""]`. -/
theorem c9_roundtrip_counterexample :
    (freshRow sampleShape).fromObject (freshRow sampleShape).toObjectEntries ≠
      freshRow sampleShape ∧
    ((freshRow sampleShape).fromObject
        (freshRow sampleShape).toObjectEntries).fields =
      [("name", vStr ""), ("tags", vArr [""])] := by
  constructor
  · decide
  · decide

/-- C9 (amended): for every record with a well-formed shape whose domain
field values are strings, numbers, booleans, dates, or nonempty arrays
of comma-free elements (no `undefined`/`null` values, no empty arrays,
no commas inside array elements), applying `fromObject` to the result of
`toObject` reproduces the record exactly (identity, meta, and domain
fields). -/
theorem c9_object_roundtrip (r : RowModel) (hwf : shapeWf r.fields)
    (hgood : ∀ kv ∈ r.fields, goodVal kv.2) :
    r.fromObject r.toObjectEntries = r := by
  unfold RowModel.fromObject RowModel.assignObj RowModel.toObjectEntries
  apply foldl_fixed
  intro kv hkv
  simp only [List.mem_cons] at hkv
  rcases hkv with rfl | rfl | rfl | rfl | hf
  · rw [if_pos (show RowModel.hasProp r "row" = true from rfl),
        typeCast_num_self r "row" rfl r.row]
    rfl
  · rw [if_pos (show RowModel.hasProp r "id" = true from rfl),
        typeCast_str_self r "id" rfl r.id]
    rfl
  · rw [if_pos (show RowModel.hasProp r "updated" = true from rfl),
        typeCast_date_self r "updated" rfl r.updated]
    rfl
  · rw [if_pos (show RowModel.hasProp r "$_action" = true from rfl),
        typeCast_num_self r "$_action" rfl r.action]
    rfl
  · obtain ⟨n, v⟩ := kv
    have hn := hwf.2 n (List.mem_map_of_mem Prod.fst hf)
    have hg := hgood (n, v) hf
    have hget : r.getProp n = v :=
      getProp_field hn.1 hn.2.1 hn.2.2.1 hn.2.2.2.1 hn.2.2.2.2 hwf.1 hf
    rw [if_pos (hasProp_field (List.mem_map_of_mem Prod.fst hf))]
    have hcast : r.typeCast n v = v := by
      cases v with
      | vStr s => exact typeCast_str_self r n hget s
      | vNum m => exact typeCast_num_self r n hget m
      | vBool b => exact typeCast_bool_self r n hget b
      | vDate d => exact typeCast_date_self r n hget d
      | vArr xs =>
          obtain ⟨hne, hnc⟩ := hg
          exact typeCast_arr_self r n hget xs hne hnc
      | vNone => exact absurd hg (by simp [goodVal])
    rw [hcast]
    exact setProp_field_self hn.1 hn.2.1 hn.2.2.1 hn.2.2.2.1 hn.2.2.2.2
      hwf.1 hf

/-- C9, witness: the amended round trip at a record with a string, a
number, a boolean, a date and a nonempty comma-free array field. -/
theorem c9_object_roundtrip_witness :
    sampleFullRow.fromObject sampleFullRow.toObjectEntries = sampleFullRow :=
  c9_object_roundtrip sampleFullRow (by constructor <;> decide)
    (by decide)

/-- C10: when the current value of the target field matches none of the
`typeCast` branches (it is `undefined`/`null`, so neither string, nor
number, nor boolean, nor Date, nor array), `typeCast(key, value)`
returns the string rendering of the entire row object
(`this.toString()`, i.e. `"[object Object]"`) whatever the supplied
value is, and `assign` by name on such a field therefore stores that
constant string rather than the incoming value. -/
theorem c10_typecast_fallthrough (r : RowModel) (key : String) (v : Value)
    (h : r.getProp key = vNone) :
    r.typeCast key v = vStr "[object Object]" ∧
    (r.hasProp key = true →
       r.assignObj [(key, v)] = r.setProp key (vStr "[object Object]")) := by
  have hcast : r.typeCast key v = vStr "[object Object]" := by
    unfold RowModel.typeCast
    rw [h]
    rfl
  refine ⟨hcast, fun hhas => ?_⟩
  unfold RowModel.assignObj
  simp only [List.foldl_cons, List.foldl_nil]
  rw [if_pos hhas, hcast]

/-- C10, witness: a row with an `undefined`-valued field `u`; assigning
any value through `typeCast` stores `"[object Object]"`. -/
theorem c10_typecast_fallthrough_witness :
    sampleNoneRow.typeCast "u" (vStr "x") = vStr "[object Object]" ∧
    (sampleNoneRow.hasProp "u" = true →
       sampleNoneRow.assignObj [("u", vStr "x")] =
         sampleNoneRow.setProp "u" (vStr "[object Object]")) :=
  c10_typecast_fallthrough sampleNoneRow "u" (vStr "x") (by decide)

/-- C4, counterexample: the claim that `typeCast` of the empty-cell
sentinel on a string field yields `""` fails: on a string field the
sentinel passes through `value.toString()` unchanged, and the result is
the one-character sentinel string, not the empty string. -/
theorem c4_sentinel_counterexample :
    (freshRow sampleShape).getProp "name" = vStr "" ∧
    (freshRow sampleShape).typeCast "name" (vStr nilCell) = vStr nilCell ∧
    vStr nilCell ≠ vStr "" := by
  refine ⟨by decide, by decide, by decide⟩

/-- C4 (amended): `stringer(undefined)` and `stringer("")` return
different cell values (the nil sentinel versus the empty string), and
for every row whose target field currently holds a string, `typeCast` of
the empty-cell sentinel on that field returns the sentinel string
unchanged (in particular it does not throw), not the empty string. -/
theorem c4_sentinel_distinction :
    stringer vNone = nilCell ∧ stringer (vStr "") = "" ∧ nilCell ≠ "" ∧
    ∀ (r : RowModel) (key : String) (s : String),
      r.getProp key = vStr s →
      r.typeCast key (vStr nilCell) = vStr nilCell :=
  ⟨rfl, rfl, by decide,
   fun r key _ h => typeCast_str_self r key h nilCell⟩

/-- C4, witness: the sentinel distinction at the sample shape's string
field. -/
theorem c4_sentinel_distinction_witness :
    stringer vNone = nilCell ∧
    (freshRow sampleShape).typeCast "name" (vStr nilCell) = vStr nilCell :=
  ⟨c4_sentinel_distinction.1,
   c4_sentinel_distinction.2.2.2 (freshRow sampleShape) "name" "" (by decide)⟩

/-- C7: after every `refresh`, the header row has been dropped from the
fetched tab values (each remaining raw row is retyped in order), every
row in `rows` has position `i + 2` where `i` is its zero-based index,
and the index is rebuilt over the new rows; the new row list is
returned. -/
theorem c7_refresh_state (tabResp : List (List String)) (t : Table) :
    (refreshOp tabResp t).2.rows.length = (tabResp.drop 1).length ∧
    (∀ (i : Nat) (r : RowModel),
       (refreshOp tabResp t).2.rows.get? i = some r →
       r.row = (i : Int) + 2 ∧
       ((tabResp.drop 1).get? i).map
         (fun cs => { typeRow t.shape cs with row := (i : Int) + 2 }) =
         some r) ∧
    (refreshOp tabResp t).2.index =
      createIndex t.keyColumn (refreshOp tabResp t).2.rows ∧
    (refreshOp tabResp t).1 = .ok (refreshOp tabResp t).2.rows := by
  refine ⟨?_, ?_, rfl, rfl⟩
  · show (positionRows 2 (typeRows t.shape (tabResp.drop 1))).length = _
    rw [positionRows_length]
    simp [typeRows]
  · intro i r hr
    have hrows : (refreshOp tabResp t).2.rows =
        positionRows 2 (typeRows t.shape (tabResp.drop 1)) := rfl
    rw [hrows, positionRows_get?, typeRows, List.get?_map] at hr
    cases hcell : (tabResp.drop 1).get? i with
    | none => rw [hcell] at hr; simp at hr
    | some cs =>
        rw [hcell] at hr
        have hr2 := Option.some.inj hr
        refine ⟨?_, ?_⟩
        · rw [← hr2]
          show (2 : Int) + (i : Int) = (i : Int) + 2
          ring
        · show some ({ typeRow t.shape cs with row := (i : Int) + 2 }) = some r
          rw [← hr2]
          have harith : (i : Int) + 2 = (2 : Int) + (i : Int) := by ring
          rw [harith]

/-- C7, witness: refreshing the sample table from a three-row tab
snapshot leaves the second data row at position `1 + 2`. -/
theorem c7_refresh_state_witness :
    ({ row := 3, id := "d4", updated := noDateMs, action := 0,
       fields := [("name", vStr "Di"), ("tags", vArr [])] } : RowModel).row =
      ((1 : Nat) : Int) + 2 :=
  ((c7_refresh_state sampleRefreshResp sampleTable).2.1 1
    { row := 3, id := "d4", updated := noDateMs, action := 0,
      fields := [("name", vStr "Di"), ("tags", vArr [])] } (by decide)).1

/-- C8: `find(value, columnName?)` returns absent for every falsy
value; with the column name omitted and a (truthy) numeric value it
returns the first row at that physical row position (absent if none);
with an explicit column name equal to the key column it is an indexed
lookup keyed by the value's string form; otherwise it scans `rows` for
the first row whose named field is strictly equal to the value (the
name defaulting to the key column when omitted), absent if none
matches. -/
theorem c8_find_semantics (t : Table) (v : Value) :
    (jsTruthy v = false → ∀ col, findOp t v col = none) ∧
    (∀ n : Int, v = vNum n → jsTruthy v = true →
       findOp t v none = t.rows.find? (fun r => r.row = n)) ∧
    (jsTruthy v = true →
       findOp t v (some t.keyColumn) = ixGet t.index (jsToString v)) ∧
    (∀ c : String, jsTruthy v = true → c ≠ "" → c ≠ t.keyColumn →
       findOp t v (some c) =
         t.rows.find? (fun r => strictEq (r.getProp c) v)) ∧
    (jsTruthy v = true → (∀ n : Int, v ≠ vNum n) →
       findOp t v none =
         t.rows.find? (fun r => strictEq (r.getProp t.keyColumn) v)) := by
  refine ⟨?_, ?_, ?_, ?_, ?_⟩
  · intro hf col
    unfold findOp
    rw [if_pos (by simp [hf])]
  · intro n hv ht
    subst hv
    unfold findOp
    rw [if_neg (by simp [ht])]
    rw [if_neg (by simp : ¬ (none : Option String) = some t.keyColumn)]
    have hpred : (fun r : RowModel => strictEq (r.getProp "row") (vNum n)) =
        (fun r : RowModel => decide (r.row = n)) := by
      funext r
      show strictEq (vNum r.row) (vNum n) = _
      simp [strictEq]
    show t.rows.find? (fun r => strictEq (r.getProp "row") (vNum n)) = _
    rw [hpred]
  · intro ht
    unfold findOp
    rw [if_neg (by simp [ht])]
    rw [if_pos rfl]
  · intro c ht hc hck
    unfold findOp
    rw [if_neg (by simp [ht])]
    rw [if_neg (by simpa using hck)]
    have hc' : (c != "") = true := by simpa using hc
    simp [hc']
  · intro ht hnum
    unfold findOp
    rw [if_neg (by simp [ht])]
    rw [if_neg (by simp : ¬ (none : Option String) = some t.keyColumn)]
    have hv : (match v with
        | vNum _ => true
        | _ => false) = false := by
      cases v <;> first | rfl | exact absurd rfl (hnum _)
    simp [hv]

/-- C8, witness: the sample table: a falsy value finds nothing, a bare
numeric value scans positions, an explicit key-column lookup uses the
index. -/
theorem c8_find_semantics_witness :
    findOp sampleTable (vStr "") none = none ∧
    findOp sampleTable (vNum 2) none =
      sampleTable.rows.find? (fun r => r.row = (2 : Int)) ∧
    findOp sampleTable (vStr "a1") (some "id") =
      ixGet sampleTable.index (jsToString (vStr "a1")) :=
  ⟨(c8_find_semantics sampleTable (vStr "")).1 (by decide) none,
   (c8_find_semantics sampleTable (vNum 2)).2.1 2 rfl (by decide),
   (c8_find_semantics sampleTable (vStr "a1")).2.2.1 (by decide)⟩

/-- C6, counterexample: the claim that `delete` on a row with position 0
fails with an `InvalidState` error and never reaches the backend is
false: `delete` has no position precondition of its own,
`checkOutdated` treats position 0 as "not outdated" without fetching,
and the backend row-delete proceeds --- here it succeeds and replaces
the rows from the delete response. -/
theorem c6_delete_unpositioned_counterexample :
    (deleteOp [] [["z9", "", "Zz", ""]] sampleTable
        (freshRow sampleShape)).1 = .ok true ∧
    (deleteOp [] [["z9", "", "Zz", ""]] sampleTable
        (freshRow sampleShape)).2.rows.map RowModel.id = ["z9"] := by
  exact ⟨by decide, by decide⟩

/-- C6 (amended): for every row with rowPosition 0, `delete` does not
fail: the staleness check returns "not outdated" without consulting the
single-row fetch (the result is the same for every fetch response), the
backend row-delete *is* issued, and `delete` returns `true` after
replacing `rows` wholesale from the delete response and rebuilding the
index. -/
theorem c6_delete_unpositioned (t : Table) (m : RowModel)
    (fetch1 fetch2 delResp : List (List String)) (h : m.row = 0) :
    deleteOp fetch1 delResp t m =
      (.ok true,
       { t with rows := typeRows t.shape delResp,
                index := createIndex t.keyColumn (typeRows t.shape delResp) }) ∧
    deleteOp fetch1 delResp t m = deleteOp fetch2 delResp t m := by
  have hco : ∀ fetch, checkOutdatedOp t fetch m = .ok false := by
    intro fetch
    unfold checkOutdatedOp
    rw [if_pos (by omega : m.row < 1)]
  constructor
  · unfold deleteOp
    rw [hco fetch1]
  · unfold deleteOp
    rw [hco fetch1, hco fetch2]

/-- C6, witness: deleting the unpositioned fresh row against the sample
table succeeds and resynchronizes from the delete response. -/
theorem c6_delete_unpositioned_witness :
    deleteOp [["a1", "", "Ann", "x,y"]] [["z9", "", "Zz", ""]] sampleTable
        (freshRow sampleShape) =
      (.ok true,
       { sampleTable with
         rows := typeRows sampleTable.shape [["z9", "", "Zz", ""]],
         index := createIndex sampleTable.keyColumn
           (typeRows sampleTable.shape [["z9", "", "Zz", ""]]) }) :=
  (c6_delete_unpositioned sampleTable (freshRow sampleShape)
    [["a1", "", "Ann", "x,y"]] [] [["z9", "", "Zz", ""]] rfl).1

/-- C5, counterexample: the claim that construction fails with a
`SchemaMismatch` whenever the declared header differs from the
snapshot's header, "including one with zero data rows", is false: with
zero data rows `checkHeader` returns immediately ("Nothing to check")
and construction succeeds even though the snapshot header `["bogus"]`
differs from the declared header. -/
theorem c5_header_check_counterexample :
    tableInit "p" "id" sampleShape ["bogus"] [] =
      .ok { name := "p", keyColumn := "id", tableHeader := ["bogus"],
            shape := sampleShape, rows := [], index := [] } ∧
    ["bogus"] ≠ (freshRow sampleShape).header := by
  exact ⟨by decide, by decide⟩

/-- C5 (amended): construction from a snapshot with zero data rows
always succeeds, whatever the headers; with at least one data row it
fails with the `SchemaMismatch` error exactly when the comma-join of
the snapshot header differs from the comma-join of the first typed
row's declared header, and otherwise succeeds, building the typed rows
and the index. -/
theorem c5_header_check (name keyColumn : String) (shape : Shape)
    (hdr : List String) (raws : List (List String)) :
    (raws = [] →
       tableInit name keyColumn shape hdr raws =
         .ok { name := name, keyColumn := keyColumn, tableHeader := hdr,
               shape := shape, rows := [], index := [] }) ∧
    (∀ r0 rest, raws = r0 :: rest →
       (String.intercalate "," hdr ≠
          String.intercalate "," (typeRow shape r0).header →
          tableInit name keyColumn shape hdr raws =
            .error (checkHeaderMsg
              (String.intercalate "," (typeRow shape r0).header)
              (String.intercalate "," hdr))) ∧
       (String.intercalate "," hdr =
          String.intercalate "," (typeRow shape r0).header →
          tableInit name keyColumn shape hdr raws =
            .ok { name := name, keyColumn := keyColumn, tableHeader := hdr,
                  shape := shape, rows := typeRows shape raws,
                  index := createIndex keyColumn (typeRows shape raws) })) := by
  constructor
  · intro h
    subst h
    rfl
  · intro r0 rest h
    subst h
    constructor
    · intro hne
      show (if String.intercalate "," hdr ≠
          String.intercalate "," (typeRow shape r0).header then _ else _) = _
      rw [if_pos hne]
    · intro heq
      show (if String.intercalate "," hdr ≠
          String.intercalate "," (typeRow shape r0).header then _ else _) = _
      rw [if_neg (by simp [heq])]

/-- C5, witness: the sample snapshot's header matches the declared
header, so construction succeeds with typed rows and index; a mismatch
on a nonempty snapshot yields the SchemaMismatch error. -/
theorem c5_header_check_witness :
    tableInit "p" "id" sampleShape sampleHeader sampleRawRows =
      .ok { name := "p", keyColumn := "id", tableHeader := sampleHeader,
            shape := sampleShape,
            rows := typeRows sampleShape sampleRawRows,
            index := createIndex "id" (typeRows sampleShape sampleRawRows) } ∧
    tableInit "p" "id" sampleShape ["bogus"] sampleRawRows =
      .error (checkHeaderMsg "id,updated,name,tags" "bogus") :=
  ⟨((c5_header_check "p" "id" sampleShape sampleHeader sampleRawRows).2
      ["a1", "", "Ann", "x,y"] [["b2", "", "Bob", ""]] rfl).2 (by decide),
   by
    have h := ((c5_header_check "p" "id" sampleShape ["bogus"]
        sampleRawRows).2 ["a1", "", "Ann", "x,y"] [["b2", "", "Bob", ""]]
        rfl).1 (by decide)
    rw [h]
    decide⟩

/-- C2: when `create`'s backend response carries a position different
from the requested `nextRow` (= rows.length + 2), the Table ends in
exactly the state a full `refresh()` (from the same tab snapshot)
produces --- same state, hence same `rows.length` (the header row
dropped) and every row at position `i + 2` --- and the value returned
by `create` is the entry found in the rebuilt index under the created
row's stringified key-column value. -/
theorem c2_create_position_race (uuid : String) (now : Int)
    (resp : CreateResult) (tabResp : List (List String)) (t : Table)
    (m : RowModel)
    (h1 : ¬ m.row > 0)
    (h2 : checkIdFails t (m.prepare uuid now) = false)
    (h3 : ¬ (resp.row < 1 ∨ resp.values = []))
    (h4 : resp.row ≠ nextRow t) :
    (createOp uuid now resp tabResp t m).2 = refreshApply tabResp t ∧
    (createOp uuid now resp tabResp t m).2 = (refreshOp tabResp t).2 ∧
    (createOp uuid now resp tabResp t m).2.rows.length =
      (tabResp.drop 1).length ∧
    (∀ (i : Nat) (r : RowModel),
       (createOp uuid now resp tabResp t m).2.rows.get? i = some r →
       r.row = (i : Int) + 2) ∧
    (createOp uuid now resp tabResp t m).1 =
      .ok (ixGet (refreshApply tabResp t).index
            (keyOf t.keyColumn
              { typeRow t.shape (resp.values.headD []) with
                row := resp.row })) := by
  have hc : createOp uuid now resp tabResp t m =
      (.ok (ixGet (refreshApply tabResp t).index
            (keyOf t.keyColumn
              { typeRow t.shape (resp.values.headD []) with
                row := resp.row })),
       refreshApply tabResp t) := by
    unfold createOp
    rw [if_neg h1]
    rw [if_neg (by simp [h2])]
    rw [if_neg h3]
    rw [if_neg h4]
    rfl
  refine ⟨?_, ?_, ?_, ?_, ?_⟩ <;> rw [hc] <;> try rfl
  · show (positionRows 2 (typeRows t.shape (tabResp.drop 1))).length = _
    rw [positionRows_length]
    simp [typeRows]
  · intro i r hr
    have hrows : (refreshApply tabResp t).rows =
        positionRows 2 (typeRows t.shape (tabResp.drop 1)) := rfl
    rw [show ((.ok (ixGet (refreshApply tabResp t).index
            (keyOf t.keyColumn
              { typeRow t.shape (resp.values.headD []) with
                row := resp.row })),
       refreshApply tabResp t) : Except SheetError (Option RowModel) × Table).2
        = refreshApply tabResp t from rfl, hrows, positionRows_get?] at hr
    cases hcell : (typeRows t.shape (tabResp.drop 1)).get? i with
    | none => rw [hcell] at hr; simp at hr
    | some cs =>
        rw [hcell] at hr
        have hr2 := Option.some.inj hr
        rw [← hr2]
        show (2 : Int) + (i : Int) = (i : Int) + 2
        ring

/-- C2, witness: the backend answers position 9 instead of the
requested 4; the table equals the refreshed state and the returned
value is the (here absent) index entry under the created row's key. -/
theorem c2_create_position_race_witness :
    (createOp "uu" 5 { row := 9, values := [["e5", "", "Ed", ""]] }
        sampleRefreshResp sampleTable sampleNewRow).2 =
      refreshApply sampleRefreshResp sampleTable ∧
    (createOp "uu" 5 { row := 9, values := [["e5", "", "Ed", ""]] }
        sampleRefreshResp sampleTable sampleNewRow).1 = .ok none := by
  have h := c2_create_position_race "uu" 5
      { row := 9, values := [["e5", "", "Ed", ""]] } sampleRefreshResp
      sampleTable sampleNewRow (by decide) (by decide) (by decide) (by decide)
  exact ⟨h.1, by rw [h.2.2.2.2]; decide⟩


theorem outdatedErrors_cons (t : Table) (m : RowModel) (cells : List String)
    (rest : List (List String)) :
    outdatedErrors t (cells :: rest) m =
      (if dateCmpNonzero (typeRow t.shape cells).updated m.updated then
        ["update is " ++ jsToString (vDate (typeRow t.shape cells).updated) ++
         " not " ++ jsToString (vDate m.updated)]
       else []) ++
      (if ¬ strictEq ((typeRow t.shape cells).getProp t.keyColumn)
          (m.getProp t.keyColumn) then
        [t.keyColumn ++ " is \"" ++
         jsToString ((typeRow t.shape cells).getProp t.keyColumn) ++
         "\" not \"" ++ jsToString (m.getProp t.keyColumn) ++ "\""]
       else []) := rfl

/-- C1, counterexample: the claim quantifies over every row with
rowPosition >= 1, but a positioned row whose key field is still empty
makes `update` fail with the MissingKey message (`checkId` runs before
`checkOutdated`), not with the Conflict error the claim requires, even
though the backend row is missing. -/
theorem c1_conflict_aborts_counterexample :
    sampleEmptyKeyRow.row = 2 ∧
    (updateOp "u7" 9 [] { values := none } sampleTable sampleEmptyKeyRow).1 =
      .error (checkIdMsg "id" 2) ∧
    checkIdMsg "id" 2 ≠
      outdatedMsg 2 (outdatedErrors sampleTable [] sampleEmptyKeyRow) := by
  exact ⟨by decide, by decide, by decide⟩

/-- C1 (amended): for every row with rowPosition >= 1, if the backend
row fetched at that position is missing, or its `updated` timestamp
differs from the caller's, or its key-field value differs from the
caller's, then `update` (provided the caller's key field is non-empty,
otherwise `checkId` raises MissingKey first) and `delete` fail with the
Conflict error built from the mismatch list --- which enumerates every
mismatch found --- and the Table (rows and index) is returned
unchanged. -/
theorem c1_conflict_aborts (uuid : String) (now : Int) (t : Table)
    (m : RowModel) (fetchResp : List (List String)) (uResp : UpdateResult)
    (delResp : List (List String))
    (hrow : 1 ≤ m.row)
    (hmis : fetchResp = [] ∨
       (∃ cells rest, fetchResp = cells :: rest ∧
          (dateCmpNonzero (typeRow t.shape cells).updated m.updated = true ∨
           strictEq ((typeRow t.shape cells).getProp t.keyColumn)
             (m.getProp t.keyColumn) = false))) :
    outdatedErrors t fetchResp m ≠ [] ∧
    (fetchResp = [] → "Row not found" ∈ outdatedErrors t fetchResp m) ∧
    (∀ cells rest, fetchResp = cells :: rest →
       (dateCmpNonzero (typeRow t.shape cells).updated m.updated = true →
          ("update is " ++ jsToString (vDate (typeRow t.shape cells).updated)
           ++ " not " ++ jsToString (vDate m.updated)) ∈
            outdatedErrors t fetchResp m) ∧
       (strictEq ((typeRow t.shape cells).getProp t.keyColumn)
           (m.getProp t.keyColumn) = false →
          (t.keyColumn ++ " is \"" ++
           jsToString ((typeRow t.shape cells).getProp t.keyColumn) ++
           "\" not \"" ++ jsToString (m.getProp t.keyColumn) ++ "\"") ∈
            outdatedErrors t fetchResp m)) ∧
    (checkIdFails t m = false →
       updateOp uuid now fetchResp uResp t m =
         (.error (outdatedMsg m.row (outdatedErrors t fetchResp m)), t)) ∧
    deleteOp fetchResp delResp t m =
      (.error (outdatedMsg m.row (outdatedErrors t fetchResp m)), t) := by
  have herr : outdatedErrors t fetchResp m ≠ [] := by
    rcases hmis with rfl | ⟨cells, rest, rfl, hd | hk⟩
    · simp [outdatedErrors]
    · simp [outdatedErrors_cons, hd]
    · cases hdate : dateCmpNonzero (typeRow t.shape cells).updated m.updated <;>
        simp [outdatedErrors_cons, hdate, hk]
  have hco : checkOutdatedOp t fetchResp m =
      .error (outdatedMsg m.row (outdatedErrors t fetchResp m)) := by
    unfold checkOutdatedOp
    rw [if_neg (by omega : ¬ m.row < 1), if_pos herr]
  refine ⟨herr, ?_, ?_, ?_, ?_⟩
  · intro h
    subst h
    simp [outdatedErrors]
  · intro cells rest h
    subst h
    constructor
    · intro hd
      simp [outdatedErrors_cons, hd]
    · intro hk
      cases hdate : dateCmpNonzero (typeRow t.shape cells).updated m.updated <;>
        simp [outdatedErrors_cons, hdate, hk]
  · intro hid
    unfold updateOp
    rw [if_neg (by simp [hid]), if_neg (by omega : ¬ m.row = 0), hco]
  · unfold deleteOp
    rw [hco]

/-- C1, witness: the backend no longer has a row at position 2; both
`update` (key field non-empty) and `delete` fail with the Conflict
message listing the mismatch and leave the sample table unchanged. -/
theorem c1_conflict_aborts_witness :
    deleteOp [] [["junk"]] sampleTable samplePosRow =
      (.error (outdatedMsg 2 ["Row not found"]), sampleTable) ∧
    updateOp "u7" 9 [] { values := none } sampleTable samplePosRow =
      (.error (outdatedMsg 2 ["Row not found"]), sampleTable) := by
  have h := c1_conflict_aborts "u7" 9 sampleTable samplePosRow []
      { values := none } [["junk"]] (by decide) (Or.inl rfl)
  exact ⟨h.2.2.2.2, h.2.2.2.1 (by decide)⟩

theorem indexConsistent_of_rebuilt {t1 : Table}
    (h : t1.index = createIndex t1.keyColumn t1.rows) (hnd : keysNodup t1) :
    indexConsistent t1 := by
  unfold indexConsistent
  rw [h]
  exact createIndex_consistent hnd

/-- C3: after every successful `create`, `update`, `delete`, or
`refresh` on a Table whose resulting rows have pairwise-distinct
key-column values (at the string level at which the index is keyed),
the index maps each row's stringified key-column value to that exact
row, and contains no entry for any key not belonging to a row currently
in `rows` --- every success path ends in `createIndex`, which rebuilds
the index wholesale from `rows`. -/
theorem c3_index_consistency :
    (∀ (uuid : String) (now : Int) (resp : CreateResult)
       (tabResp : List (List String)) (t : Table) (m : RowModel)
       (v : Option RowModel) (t1 : Table),
       createOp uuid now resp tabResp t m = (.ok v, t1) →
       keysNodup t1 → indexConsistent t1) ∧
    (∀ (uuid : String) (now : Int) (fetchResp : List (List String))
       (resp : UpdateResult) (t : Table) (m : RowModel)
       (v : Option RowModel) (t1 : Table),
       updateOp uuid now fetchResp resp t m = (.ok v, t1) →
       keysNodup t1 → indexConsistent t1) ∧
    (∀ (fetchResp delResp : List (List String)) (t : Table) (m : RowModel)
       (v : Bool) (t1 : Table),
       deleteOp fetchResp delResp t m = (.ok v, t1) →
       keysNodup t1 → indexConsistent t1) ∧
    (∀ (tabResp : List (List String)) (t : Table)
       (v : Except SheetError (List RowModel)) (t1 : Table),
       refreshOp tabResp t = (v, t1) → keysNodup t1 → indexConsistent t1) :=
  ⟨fun _ _ _ _ _ _ _ _ h hnd =>
     indexConsistent_of_rebuilt (createOp_ok_shape h).2 hnd,
   fun _ _ _ _ _ _ _ _ h hnd =>
     indexConsistent_of_rebuilt (updateOp_ok_shape h).2 hnd,
   fun _ _ _ _ _ _ h hnd =>
     indexConsistent_of_rebuilt (deleteOp_ok_shape h).2 hnd,
   fun _ _ _ _ h hnd =>
     indexConsistent_of_rebuilt (refreshOp_shape h).2 hnd⟩

/-- C3, witness: refreshing the sample table yields distinct keys and a
consistent index. -/
theorem c3_index_consistency_witness :
    keysNodup (refreshOp sampleRefreshResp sampleTable).2 ∧
    indexConsistent (refreshOp sampleRefreshResp sampleTable).2 :=
  ⟨by decide,
   c3_index_consistency.2.2.2 sampleRefreshResp sampleTable
     (refreshOp sampleRefreshResp sampleTable).1
     (refreshOp sampleRefreshResp sampleTable).2 rfl (by decide)⟩
